import Mathlib

/-!
Verification of the rendererthingy software-rasterizer core against its
natural-language specification.

The Rust source is embedded shallowly: `f64` scalars are modelled as exact
rationals `ℚ` (the claims under test are about control flow, counting and
exact linear interpolation, not about rounding), `usize`/`i32` as `ℕ`/`ℤ`,
fallible operations (iterator `next`, slice indexing) as `Option`.  Each
definition names the Rust item it embeds.
-/

namespace Renderer

/-- `ShaderValue` (src/renderer/common.rs:344-354): the named interpolation
channels.  `LAST` is the sentinel variant whose discriminant is the channel
count.  Note the enum as committed has no UV variants. -/
inductive ShaderValue
  | Depth
  | PositionX
  | PositionY
  | PositionZ
  | NormalX
  | NormalY
  | NormalZ
  | LAST
deriving DecidableEq

/-- The discriminant of a `ShaderValue` variant (`value as usize` in Rust). -/
def ShaderValue.val : ShaderValue → ℕ
  | .Depth => 0
  | .PositionX => 1
  | .PositionY => 2
  | .PositionZ => 3
  | .NormalX => 4
  | .NormalY => 5
  | .NormalZ => 6
  | .LAST => 7

/-- `VALUES_AMOUNT = ShaderValue::LAST as usize` (common.rs:396). -/
def VALUES_AMOUNT : ℕ := ShaderValue.LAST.val

theorem VALUES_AMOUNT_eq : VALUES_AMOUNT = 7 := rfl

instance : NeZero VALUES_AMOUNT := ⟨by decide⟩

/-- `Interpolated = [f64; VALUES_AMOUNT]` (common.rs:410), as a function out
of `Fin VALUES_AMOUNT`. -/
abbrev Interpolated : Type := Fin VALUES_AMOUNT → ℚ

/-- `INTERPOLATED_ZEROS` (common.rs:411). -/
def INTERPOLATED_ZEROS : Interpolated := fun _ => 0

/-- `IValue` (common.rs:357-361): one channel's endpoint pair. -/
structure IValue where
  lower : ℚ
  upper : ℚ
deriving DecidableEq

/-- `IValue::reversed` (common.rs:365). -/
def IValue.reversed (v : IValue) : IValue :=
  ⟨v.upper, v.lower⟩

/-- `IValueIter` (common.rs:376-381): the per-channel lazy walk state. -/
structure IValueIter where
  start : ℚ
  step : ℚ
deriving DecidableEq

/-- `IValue::interpolator` (common.rs:370-373): step is
`(upper - lower) / amount`.  (Rust divides `f64` by `amount as f64`; every
caller passes `amount ≥ 1`, so exact division on `ℚ` is faithful.) -/
def IValue.interpolator (v : IValue) (amount : ℕ) : IValueIter :=
  ⟨v.lower, (v.upper - v.lower) / amount⟩

/-- `<IValueIter as Iterator>::next` (common.rs:383-394): yields the current
value and advances by `step`; never `None`. -/
def IValueIter.next (it : IValueIter) : Option (ℚ × IValueIter) :=
  some (it.start, ⟨it.start + it.step, it.step⟩)

/-- `ValuesType = [IValue; VALUES_AMOUNT]` (common.rs:398). -/
abbrev ValuesType : Type := Fin VALUES_AMOUNT → IValue

/-- `combine_interpolated` (common.rs:400-406): zip two payloads into
per-channel endpoint pairs. -/
def combine_interpolated (p0 p1 : Interpolated) : ValuesType :=
  fun i => ⟨p0 i, p1 i⟩

/-- Sequence a family of options (the `expect`-unwrapping of each channel's
`next` inside `InterpolaterIter::next`): `some` exactly when every component
is `some`, else the Rust code would panic. -/
def seqPi {n : ℕ} {α : Type} (f : Fin n → Option α) : Option (Fin n → α) :=
  if h : ∀ i, (f i).isSome then some (fun i => (f i).get (h i)) else none

/-- `Interpolator` (common.rs:430-433). -/
structure Interpolator where
  values : ValuesType

/-- `Interpolator::new` (common.rs:437-440). -/
def Interpolator.new (values : ValuesType) : Interpolator :=
  ⟨values⟩

/-- `Interpolator::new_reversed` (common.rs:442-446). -/
def Interpolator.new_reversed (values : ValuesType) : Interpolator :=
  Interpolator.new (fun i => (values i).reversed)

/-- `InterpolaterIter` (common.rs:457-460). -/
structure InterpolaterIter where
  values : Fin VALUES_AMOUNT → IValueIter

/-- `Interpolator::interpolator` (common.rs:448-454): each channel gets an
`IValueIter` built with `amount + 1`. -/
def Interpolator.interpolator (p : Interpolator) (amount : ℕ) : InterpolaterIter :=
  ⟨fun i => (p.values i).interpolator (amount + 1)⟩

/-- `<InterpolaterIter as Iterator>::next` (common.rs:462-473): step every
channel's iterator, unwrapping each `next` (`expect("infinite iterator")`line
modelled by `seqPi`). -/
def InterpolaterIter.next (it : InterpolaterIter) : Option (Interpolated × InterpolaterIter) :=
  (seqPi (fun i => (it.values i).next)).map
    (fun r => (fun i => (r i).1, ⟨fun i => (r i).2⟩))

theorem InterpolaterIter.next_eq (it : InterpolaterIter) :
    it.next = some (fun i => (it.values i).start,
      ⟨fun i => ⟨(it.values i).start + (it.values i).step, (it.values i).step⟩⟩) := by
  simp [InterpolaterIter.next, seqPi, IValueIter.next]

/-- `Point<T>` (common.rs:413-419): a screen point (local when `T = ℕ`)
carrying the full interpolation payload. -/
structure Point (T : Type) where
  x : T
  y : T
  interpolated : Interpolated
deriving DecidableEq

/-- `Point::get` (common.rs:421-427): `self.interpolated[value as usize]`.
Indexing at `LAST` (discriminant `VALUES_AMOUNT`) would panic in Rust and is
never done; the out-of-range arm is junk. -/
def Point.get {T : Type} (p : Point T) (v : ShaderValue) : ℚ :=
  if h : v.val < VALUES_AMOUNT then p.interpolated ⟨v.val, h⟩ else 0

end Renderer

namespace Renderer

/-! ## The four line walks (src/renderer/normal_drawable/drawable.rs)

Each walk is the Rust `for` loop unrolled by its iteration count, threading
the interpolation iterator; a `none` result models the `expect("infinite")`
panic (never reached, see the totality theorem). -/

/-- The loop body of `line_horizontal` (drawable.rs:173-177): `k` iterations
left, current column `x`, fixed row `y`. -/
def line_horizontal_go (y : ℕ) : ℕ → ℕ → InterpolaterIter → Option (List (Point ℕ))
  | _, 0, _ => some []
  | x, k + 1, it =>
    match it.next with
    | none => none
    | some (v, it') =>
      (line_horizontal_go y (x + 1) k it').map (fun rest => ⟨x, y, v⟩ :: rest)

/-- `Drawable::line_horizontal` (drawable.rs:165-178): `length` pixels from
column `x` on row `y`, payloads from `interpolator.interpolator(length)`. -/
def line_horizontal (y x length : ℕ) (interp : Interpolator) : Option (List (Point ℕ)) :=
  line_horizontal_go y x length (interp.interpolator length)

/-- The loop body of `line_vertical` (drawable.rs:158-162). -/
def line_vertical_go (x : ℕ) : ℕ → ℕ → InterpolaterIter → Option (List (Point ℕ))
  | _, 0, _ => some []
  | y, k + 1, it =>
    match it.next with
    | none => none
    | some (v, it') =>
      (line_vertical_go x (y + 1) k it').map (fun rest => ⟨x, y, v⟩ :: rest)

/-- `Drawable::line_vertical` (drawable.rs:150-163). -/
def line_vertical (x y length : ℕ) (interp : Interpolator) : Option (List (Point ℕ)) :=
  line_vertical_go x y length (interp.interpolator length)

/-- The loop body of `line_low_points` (drawable.rs:86-102): Bresenham along
`x`, carrying the signed row `y` and the error term.  `y.toNat` models the
`y as usize` cast (negative `y` is unreachable from `line_points`). -/
def line_low_go (dx dy sy : ℤ) : ℕ → ℕ → ℤ → ℤ → InterpolaterIter → Option (List (Point ℕ))
  | 0, _, _, _, _ => some []
  | k + 1, x, y, error, it =>
    match it.next with
    | none => none
    | some (v, it') =>
      let rest :=
        if error > 0 then
          line_low_go dx dy sy k (x + 1) (y + sy) (error + 2 * (dy - dx)) it'
        else
          line_low_go dx dy sy k (x + 1) y (error + 2 * dy) it'
      rest.map (fun r => ⟨x, y.toNat, v⟩ :: r)

/-- `Drawable::line_low_points` (drawable.rs:61-103).  Every caller ensures
`x0 < x1`, so `(x1 - x0) as i32` is modelled by truncated `ℕ` subtraction and
the inclusive loop `x0..=x1` by `x1 - x0 + 1` iterations. -/
def line_low_points (x0 y0 x1 y1 : ℕ) (interp : Interpolator) : Option (List (Point ℕ)) :=
  let dx : ℤ := ((x1 - x0 : ℕ) : ℤ)
  let dy0 : ℤ := (y1 : ℤ) - (y0 : ℤ)
  let sy : ℤ := if dy0 < 0 then -1 else 1
  let dy : ℤ := if dy0 < 0 then -dy0 else dy0
  line_low_go dx dy sy (x1 - x0 + 1) x0 (y0 : ℤ) (2 * dy - dx)
    (interp.interpolator (x1 - x0))

/-- The loop body of `line_high_points` (drawable.rs:130-147): Bresenham
along `y`, carrying the signed column `x`. -/
def line_high_go (dx dy sx : ℤ) : ℕ → ℕ → ℤ → ℤ → InterpolaterIter → Option (List (Point ℕ))
  | 0, _, _, _, _ => some []
  | k + 1, y, x, error, it =>
    match it.next with
    | none => none
    | some (v, it') =>
      let rest :=
        if error > 0 then
          line_high_go dx dy sx k (y + 1) (x + sx) (error + 2 * (dx - dy)) it'
        else
          line_high_go dx dy sx k (y + 1) x (error + 2 * dx) it'
      rest.map (fun r => ⟨x.toNat, y, v⟩ :: r)

/-- `Drawable::line_high_points` (drawable.rs:105-148).  Every caller ensures
`y0 < y1`. -/
def line_high_points (x0 y0 x1 y1 : ℕ) (interp : Interpolator) : Option (List (Point ℕ)) :=
  let dy : ℤ := ((y1 - y0 : ℕ) : ℤ)
  let dx0 : ℤ := (x1 : ℤ) - (x0 : ℤ)
  let sx : ℤ := if dx0 < 0 then -1 else 1
  let dx : ℤ := if dx0 < 0 then -dx0 else dx0
  line_high_go dx dy sx (y1 - y0 + 1) y0 (x0 : ℤ) (2 * dx - dy)
    (interp.interpolator (y1 - y0))

/-- `Drawable::line_points` (drawable.rs:180-263): dispatch on the octant,
reversing the channel pairs when the walk runs against the given order.  The
pixel list is the sequence of `draw_function` calls. -/
def line_points (p0 p1 : Point ℕ) : Option (List (Point ℕ)) :=
  let values := combine_interpolated p0.interpolated p1.interpolated
  let y_abs_diff : ℕ := ((p1.y : ℤ) - (p0.y : ℤ)).natAbs
  let x_abs_diff : ℕ := ((p1.x : ℤ) - (p0.x : ℤ)).natAbs
  if p0.x = p1.x then
    if p0.y > p1.y then
      line_vertical p0.x p1.y (y_abs_diff + 1) (Interpolator.new_reversed values)
    else
      line_vertical p0.x p0.y (y_abs_diff + 1) (Interpolator.new values)
  else if p0.y = p1.y then
    if p0.x > p1.x then
      line_horizontal p0.y p1.x (x_abs_diff + 1) (Interpolator.new_reversed values)
    else
      line_horizontal p0.y p0.x (x_abs_diff + 1) (Interpolator.new values)
  else if y_abs_diff < x_abs_diff then
    if p0.x > p1.x then
      line_low_points p1.x p1.y p0.x p0.y (Interpolator.new_reversed values)
    else
      line_low_points p0.x p0.y p1.x p1.y (Interpolator.new values)
  else
    if p0.y > p1.y then
      line_high_points p1.x p1.y p0.x p0.y (Interpolator.new_reversed values)
    else
      line_high_points p0.x p0.y p1.x p1.y (Interpolator.new values)

end Renderer

namespace Renderer

/-- Closed form of the horizontal walk: it always succeeds and the `i`-th
pixel sits at column `x + i` with payload `start + i * step` per channel. -/
theorem line_horizontal_go_closed (y : ℕ) :
    ∀ (k x : ℕ) (it : InterpolaterIter),
      line_horizontal_go y x k it =
        some ((List.range k).map fun i =>
          ⟨x + i, y, fun ch => (it.values ch).start + (i : ℚ) * (it.values ch).step⟩)
  | 0, x, it => by simp [line_horizontal_go]
  | k + 1, x, it => by
    rw [line_horizontal_go, InterpolaterIter.next_eq]
    dsimp only
    rw [line_horizontal_go_closed y k (x + 1)]
    simp only [Option.map_some']
    refine congrArg some ?_
    rw [List.range_succ_eq_map, List.map_cons, List.map_map]
    refine congrArg₂ _ ?_ (List.map_congr_left fun i _ => ?_)
    · exact congrArg₂ (fun a f => Point.mk a y f) (by omega)
        (funext fun ch => by push_cast; ring)
    · exact congrArg₂ (fun a f => Point.mk a y f) (by omega)
        (funext fun ch => by push_cast; ring)

theorem line_vertical_go_total (x : ℕ) :
    ∀ (k y : ℕ) (it : InterpolaterIter), (line_vertical_go x y k it).isSome
  | 0, _, _ => rfl
  | k + 1, y, it => by
    rw [line_vertical_go, InterpolaterIter.next_eq]
    simpa using line_vertical_go_total x k (y + 1) _

theorem line_low_go_total (dx dy sy : ℤ) :
    ∀ (k x : ℕ) (y error : ℤ) (it : InterpolaterIter),
      (line_low_go dx dy sy k x y error it).isSome
  | 0, _, _, _, _ => rfl
  | k + 1, x, y, error, it => by
    rw [line_low_go, InterpolaterIter.next_eq]
    by_cases h : error > 0
    · simpa [h] using
        line_low_go_total dx dy sy k (x + 1) (y + sy) (error + 2 * (dy - dx)) _
    · simpa [h] using line_low_go_total dx dy sy k (x + 1) y (error + 2 * dy) _

theorem line_high_go_total (dx dy sx : ℤ) :
    ∀ (k y : ℕ) (x error : ℤ) (it : InterpolaterIter),
      (line_high_go dx dy sx k y x error it).isSome
  | 0, _, _, _, _ => rfl
  | k + 1, y, x, error, it => by
    rw [line_high_go, InterpolaterIter.next_eq]
    by_cases h : error > 0
    · simpa [h] using
        line_high_go_total dx dy sx k (y + 1) (x + sx) (error + 2 * (dx - dy)) _
    · simpa [h] using line_high_go_total dx dy sx k (y + 1) x (error + 2 * dx) _

/-- C10: the interpolation iterators are total — `IValueIter::next` and
`InterpolaterIter::next` always return `Some` (for every state and step
count, 0 included), so the `expect("infinite")` unwraps inside the vertical,
horizontal, low-slope and high-slope line walks can never panic, whatever
the walk's length. -/
theorem c10_interpolation_iterators_total :
    (∀ it : IValueIter, it.next.isSome) ∧
    (∀ it : InterpolaterIter, it.next.isSome) ∧
    (∀ x y length interp, (line_vertical x y length interp).isSome) ∧
    (∀ y x length interp, (line_horizontal y x length interp).isSome) ∧
    (∀ x0 y0 x1 y1 interp, (line_low_points x0 y0 x1 y1 interp).isSome) ∧
    (∀ x0 y0 x1 y1 interp, (line_high_points x0 y0 x1 y1 interp).isSome) := by
  refine ⟨fun it => rfl, fun it => ?_, fun x y length interp => ?_,
    fun y x length interp => ?_, fun x0 y0 x1 y1 interp => ?_,
    fun x0 y0 x1 y1 interp => ?_⟩
  · rw [InterpolaterIter.next_eq]; rfl
  · exact line_vertical_go_total x length y _
  · rw [line_horizontal, line_horizontal_go_closed]; rfl
  · exact line_low_go_total _ _ _ _ _ _ _ _
  · exact line_high_go_total _ _ _ _ _ _ _ _

end Renderer

namespace Renderer

/-- A horizontal `line_points` call from `(x, y)` to `(x + N, y)` dispatches
to `line_horizontal` with `length = N + 1` and an interpolator built with
`amount = N + 1`, hence a per-channel step of `(B - A) / (N + 2)`. -/
theorem line_points_horizontal (x y N : ℕ) (A B : Interpolated) (hN : 1 ≤ N) :
    line_points ⟨x, y, A⟩ ⟨x + N, y, B⟩ =
      some ((List.range (N + 1)).map fun i =>
        ⟨x + i, y, fun ch => A ch + (i : ℚ) * ((B ch - A ch) / ((N : ℚ) + 2))⟩) := by
  have hxx : x ≠ x + N := by omega
  have hgt : ¬ (x > x + N) := by omega
  have habs : (((x + N : ℕ) : ℤ) - ((x : ℕ) : ℤ)).natAbs = N := by omega
  rw [line_points]
  dsimp only
  rw [if_neg hxx, if_pos rfl, if_neg hgt, habs, line_horizontal,
    line_horizontal_go_closed]
  refine congrArg some (List.map_congr_left fun i _ => ?_)
  refine congrArg _ (funext fun ch => ?_)
  show A ch + (i : ℚ) * ((B ch - A ch) / ((((N + 1) + 1 : ℕ) : ℚ))) = _
  push_cast
  ring

/-- The all-zero endpoint payload used for the C1 inputs. -/
def cexA : Interpolated := fun _ => 0

/-- The all-one endpoint payload used for the C1 inputs. -/
def cexB : Interpolated := fun _ => 1

/-- C1 counterexample: a horizontal line of pixel length `N = 1` from payload
`A = 0` to payload `B = 1` delivers the payloads `[0, 1/3]`, not `[0, 1]` as
the claim's `A + (i/N)(B - A)` formula demands — the final delivered payload
misses `B = 1` by `2/3`, far beyond the `1e-6` tolerance. -/
theorem c1_counterexample :
    line_points ⟨0, 0, cexA⟩ ⟨0 + 1, 0, cexB⟩
      = some [⟨0, 0, fun _ => 0⟩, ⟨1, 0, fun _ => 1/3⟩] ∧
    1e-6 < |cexB 0 - 1/3| := by
  constructor
  · rw [line_points_horizontal 0 0 1 cexA cexB (by decide)]
    refine congrArg some ?_
    simp only [List.range_succ, List.range_zero, List.map_cons, List.map_nil,
      List.nil_append, List.cons_append]
    refine congrArg₂ _ ?_ (congrArg₂ _ ?_ rfl)
    · exact congrArg _ (funext fun ch => by simp [cexA, cexB])
    · exact congrArg _ (funext fun ch => by norm_num [cexA, cexB])
  · norm_num [cexB]
    rw [abs_of_pos (by norm_num : (0:ℚ) < 2/3)]
    norm_num

/-- C1 (amended): for every horizontal line of pixel length `N ≥ 1` from
payload `A` at `(x, y)` to payload `B` at `(x + N, y)`, `line_points`
delivers exactly `N + 1` pixels, the `i`-th delivered payload equals
`A + (i / (N + 2)) * (B - A)` in every channel (exactly), and the first
delivered payload equals `A`; the last payload is `A + (N/(N+2))(B-A)`,
which differs from `B` whenever `A ≠ B`. -/
theorem c1_horizontal_line_amended (x y N : ℕ) (A B : Interpolated) (hN : 1 ≤ N) :
    ∃ l : List (Point ℕ),
      line_points ⟨x, y, A⟩ ⟨x + N, y, B⟩ = some l ∧
      l.length = N + 1 ∧
      (∀ i : ℕ, i < N + 1 →
        l[i]? = some ⟨x + i, y, fun ch => A ch + (i : ℚ) * ((B ch - A ch) / ((N : ℚ) + 2))⟩) ∧
      l[0]? = some ⟨x, y, A⟩ := by
  refine ⟨_, line_points_horizontal x y N A B hN, by simp, fun i hi => ?_, ?_⟩
  · simp [List.getElem?_map, List.getElem?_range, hi]
  · simp only [List.getElem?_map, List.getElem?_range, Nat.succ_pos, Option.map_some']
    exact congrArg some (congrArg₂ (fun a f => Point.mk a y f) (by omega)
      (funext fun ch => by norm_num))

/-- C1 witness: the amended theorem applied at the concrete line from
`(0,0)` payload `0` to `(1,0)` payload `1`. -/
theorem c1_witness :
    ∃ l : List (Point ℕ),
      line_points ⟨0, 0, cexA⟩ ⟨0 + 1, 0, cexB⟩ = some l ∧
      l.length = 1 + 1 ∧
      (∀ i : ℕ, i < 1 + 1 →
        l[i]? = some ⟨0 + i, 0, fun ch => cexA ch + (i : ℚ) * ((cexB ch - cexA ch) / ((1 : ℚ) + 2))⟩) ∧
      l[0]? = some ⟨0, 0, cexA⟩ :=
  c1_horizontal_line_amended 0 0 1 cexA cexB (by decide)

end Renderer

namespace Renderer

/-! ## Colors, shaders and the two frame surfaces
(src/renderer/common.rs, src/renderer/normal_drawable.rs)

The display sink (`DrawableDisplay`) is an external collaborator and is not
modelled; a surface's `display` is the color buffer it would hand over. -/

/-- `Color` (common.rs:231-237). -/
structure Color where
  r : ℚ
  g : ℚ
  b : ℚ
deriving DecidableEq

/-- `Point3D` (common.rs:261-267). -/
structure Point3D where
  x : ℚ
  y : ℚ
  z : ℚ
deriving DecidableEq

/-- `Light` (common.rs:482-488). -/
structure Light where
  position : Point3D
  intensity : ℚ
deriving DecidableEq

/-- `FaceShader` (common.rs:475-480): a flat color plus the light list.  (The
committed `FaceShader` has no texture field, although `renderer.rs:312` and
`color_shader.rs:28` expect one — see C5.) -/
structure FaceShader where
  color : Color
  lights : List Light
deriving DecidableEq

/-- `PixelInfo` (common.rs:490-495): the per-pixel record of the deferred
surface. -/
structure PixelInfo where
  shader : Option FaceShader
  interpolated : Interpolated
deriving DecidableEq

/-- `PixelInfo::new` (common.rs:497-502). -/
def PixelInfo.new (interpolated : Interpolated) : PixelInfo :=
  ⟨none, interpolated⟩

/-- `PixelInfo::set` (common.rs:504-508). -/
def PixelInfo.set (shader : FaceShader) (interpolated : Interpolated) : PixelInfo :=
  ⟨some shader, interpolated⟩

/-- `PixelInfo::get` (common.rs:510-513). -/
def PixelInfo.get (info : PixelInfo) (v : ShaderValue) : ℚ :=
  if h : v.val < VALUES_AMOUNT then info.interpolated ⟨v.val, h⟩ else 0

/-- The type of the lit branch of `color_shader::execute` (color_shader.rs:
12-61): from the winning face shader and interpolated payload to a color.
It is kept as a parameter because the committed branch body does not
type-check against the committed `common.rs`: it reads `ShaderValue::UvX`
and `ShaderValue::UvY` (absent from the enum, whose channels end at
`NormalZ`) and `shader.texture` (absent from `FaceShader`) — see C5. -/
abbrev ShadeFn : Type := FaceShader → Interpolated → Color

/-- `color_shader::execute` (color_shader.rs:10-66): shade through the lit
branch when a shader reference is present, else black — the `else` arm at
color_shader.rs:62-65 exactly. -/
def color_shader_execute (shade : ShadeFn) (pixel : PixelInfo) : Color :=
  match pixel.shader with
  | some shader => shade shader pixel.interpolated
  | none => ⟨0, 0, 0⟩

/-- A concrete `ShadeFn` instance: the textureless flat-color object with the
brightness fixed by its lights; used only to instantiate witnesses. -/
def shadeFlat : ShadeFn := fun shader _ => shader.color

/-- `NormalSurface` (normal_drawable.rs:67-73): width x height, a depth
buffer and an immediately-shaded color buffer, both row-major from the top
row.  The `Vec`s are total maps from the flat index; entries at or beyond
`size.0 * size.1` are never read or written by in-bounds pixel writes. -/
structure NormalSurface where
  size : ℕ × ℕ
  depths : ℕ → ℚ
  colors : ℕ → Color

/-- `NormalDrawable::surface` (normal_drawable.rs:54-64): depths all `1.0`,
colors all black. -/
def NormalDrawable.surface (size : ℕ × ℕ) : NormalSurface :=
  ⟨size, fun _ => 1, fun _ => ⟨0, 0, 0⟩⟩

/-- `<NormalSurface as Drawable>::set_pixel_data` (normal_drawable.rs:
87-107): reject when the depth channel is outside `[-1, 1]` or the
coordinate is out of bounds; else depth-test with strict less-than and on a
win shade immediately and store color and depth.  (`self.size.1 - point.y
- 1` is computed before the bounds check in Rust but used only after it;
truncated `ℕ` subtraction is faithful on every used path.) -/
def NormalSurface.set_pixel_data (s : NormalSurface) (shade : ShadeFn)
    (point : Point ℕ) (shader : FaceShader) : NormalSurface :=
  let index := (s.size.2 - point.y - 1) * s.size.1 + point.x
  let depth := point.get ShaderValue.Depth
  if depth < -1 ∨ depth > 1 ∨ point.x ≥ s.size.1 ∨ point.y ≥ s.size.2 then s
  else if depth < s.depths index then
    { s with
      colors := Function.update s.colors index
        (color_shader_execute shade ⟨some shader, point.interpolated⟩),
      depths := Function.update s.depths index depth }
  else s

/-- `<NormalSurface as DrawSurface>::display` (normal_drawable.rs:75-82):
the buffer handed to the display sink is the color buffer as is. -/
def NormalSurface.display (s : NormalSurface) : ℕ → Color :=
  s.colors

/-- The `empty` pixel of `DeferredDrawable::surface` (normal_drawable.rs:
151-152): all channels zero except `Depth = 1.0`. -/
def deferred_empty : Interpolated :=
  Function.update INTERPOLATED_ZEROS ⟨ShaderValue.Depth.val, by decide⟩ 1

/-- `DeferredSurface` (normal_drawable.rs:136-141). -/
structure DeferredSurface where
  size : ℕ × ℕ
  pixels : ℕ → PixelInfo

/-- `DeferredDrawable::surface` (normal_drawable.rs:147-159). -/
def DeferredDrawable.surface (size : ℕ × ℕ) : DeferredSurface :=
  ⟨size, fun _ => PixelInfo.new deferred_empty⟩

/-- `<DeferredSurface as Drawable>::set_pixel_data` (normal_drawable.rs:
176-193): same rejection and strict-less-than depth test against the stored
record's depth channel; on a win store the shader reference and payload. -/
def DeferredSurface.set_pixel_data (s : DeferredSurface)
    (point : Point ℕ) (shader : FaceShader) : DeferredSurface :=
  let index := (s.size.2 - point.y - 1) * s.size.1 + point.x
  let depth := point.get ShaderValue.Depth
  if depth < -1 ∨ depth > 1 ∨ point.x ≥ s.size.1 ∨ point.y ≥ s.size.2 then s
  else if depth < (s.pixels index).get ShaderValue.Depth then
    { s with
      pixels := Function.update s.pixels index
        (PixelInfo.set shader point.interpolated) }
  else s

/-- `<DeferredSurface as DrawSurface>::display` (normal_drawable.rs:
162-171): shade every stored pixel record exactly once. -/
def DeferredSurface.display (s : DeferredSurface) (shade : ShadeFn) : ℕ → Color :=
  fun i => color_shader_execute shade (s.pixels i)

/-- A frame's pixel writes, in the order the shared rasterization algorithms
(`Drawable::line` / `Drawable::triangle`) produce them; both surfaces
receive the identical sequence since the algorithms are generic over the
surface. -/
abbrev WriteList : Type := List (Point ℕ × FaceShader)

/-- Fold a frame's writes into an immediate surface. -/
def NormalSurface.draw_writes (s : NormalSurface) (shade : ShadeFn)
    (ws : WriteList) : NormalSurface :=
  ws.foldl (fun s w => s.set_pixel_data shade w.1 w.2) s

/-- Fold a frame's writes into a deferred surface. -/
def DeferredSurface.draw_writes (s : DeferredSurface) (ws : WriteList) : DeferredSurface :=
  ws.foldl (fun s w => s.set_pixel_data w.1 w.2) s

end Renderer

namespace Renderer

/-- The depth channel's slot (`ShaderValue::Depth as usize = 0`). -/
def depth_slot : Fin VALUES_AMOUNT := ⟨ShaderValue.Depth.val, by decide⟩

theorem point_get_depth {T : Type} (p : Point T) :
    p.get ShaderValue.Depth = p.interpolated depth_slot := rfl

theorem pixelinfo_get_depth (info : PixelInfo) :
    info.get ShaderValue.Depth = info.interpolated depth_slot := rfl

/-- The all-`0.5` gray face shader (`Color::new(0.5, 0.5, 0.5)` default of
renderer.rs:315) with no lights; a concrete witness input. -/
def fsGray : FaceShader := ⟨⟨1/2, 1/2, 1/2⟩, []⟩

/-- A payload with every channel `1.0`; its depth channel sits exactly on
the far plane. -/
def onesPayload : Interpolated := fun _ => 1

/-- C3: a pixel write whose depth channel lies outside `[-1, 1]` or whose
coordinate lies outside the surface bounds leaves both the immediate and the
deferred surface entirely unchanged (colors, depths and pixel records) —
the write is silently discarded, no error reaches the caller. -/
theorem c3_out_of_range_write_discarded (shade : ShadeFn) (sn : NormalSurface)
    (sd : DeferredSurface) (p q : Point ℕ) (fsn fsd : FaceShader)
    (hn : p.get ShaderValue.Depth < -1 ∨ p.get ShaderValue.Depth > 1 ∨
      p.x ≥ sn.size.1 ∨ p.y ≥ sn.size.2)
    (hd : q.get ShaderValue.Depth < -1 ∨ q.get ShaderValue.Depth > 1 ∨
      q.x ≥ sd.size.1 ∨ q.y ≥ sd.size.2) :
    sn.set_pixel_data shade p fsn = sn ∧ sd.set_pixel_data q fsd = sd := by
  constructor
  · simp only [NormalSurface.set_pixel_data]
    exact if_pos hn
  · simp only [DeferredSurface.set_pixel_data]
    exact if_pos hd

/-- C3 witness: on a fresh 2 x 2 surface of either kind, a write at column 5
(in depth range) is discarded and the surface is unchanged. -/
theorem c3_witness :
    (NormalDrawable.surface (2, 2)).set_pixel_data shadeFlat
        ⟨5, 0, INTERPOLATED_ZEROS⟩ fsGray = NormalDrawable.surface (2, 2) ∧
    (DeferredDrawable.surface (2, 2)).set_pixel_data
        ⟨5, 0, INTERPOLATED_ZEROS⟩ fsGray = DeferredDrawable.surface (2, 2) :=
  c3_out_of_range_write_discarded shadeFlat _ _ _ _ _ _
    (Or.inr (Or.inr (Or.inl (by decide))))
    (Or.inr (Or.inr (Or.inl (by decide))))

end Renderer

namespace Renderer

theorem draw_writes_nil_normal (s : NormalSurface) (shade : ShadeFn) :
    s.draw_writes shade [] = s := rfl

theorem draw_writes_cons_normal (s : NormalSurface) (shade : ShadeFn)
    (w : Point ℕ × FaceShader) (ws : WriteList) :
    s.draw_writes shade (w :: ws) = (s.set_pixel_data shade w.1 w.2).draw_writes shade ws := rfl

theorem draw_writes_nil_deferred (s : DeferredSurface) :
    s.draw_writes [] = s := rfl

theorem draw_writes_cons_deferred (s : DeferredSurface)
    (w : Point ℕ × FaceShader) (ws : WriteList) :
    s.draw_writes (w :: ws) = (s.set_pixel_data w.1 w.2).draw_writes ws := rfl

/-- One immediate-surface write keeps every stored depth at or below `1`. -/
theorem normal_depths_le_one_step (shade : ShadeFn) (p : Point ℕ) (fs : FaceShader)
    (s : NormalSurface) (hs : ∀ i, s.depths i ≤ 1) :
    ∀ i, (s.set_pixel_data shade p fs).depths i ≤ 1 := by
  intro i
  simp only [NormalSurface.set_pixel_data]
  split
  · exact hs i
  · rename_i h
    push_neg at h
    split
    · simp only [Function.update_apply]
      split
      · exact h.2.1
      · exact hs i
    · exact hs i

/-- One deferred-surface write keeps every stored record's depth channel at
or below `1`. -/
theorem deferred_depths_le_one_step (p : Point ℕ) (fs : FaceShader)
    (s : DeferredSurface) (hs : ∀ i, (s.pixels i).get ShaderValue.Depth ≤ 1) :
    ∀ i, ((s.set_pixel_data p fs).pixels i).get ShaderValue.Depth ≤ 1 := by
  intro i
  simp only [DeferredSurface.set_pixel_data]
  split
  · exact hs i
  · rename_i h
    push_neg at h
    split
    · simp only [Function.update_apply]
      split
      · exact h.2.1
      · exact hs i
    · exact hs i

theorem normal_draw_writes_depths_le_one (shade : ShadeFn) (ws : WriteList) :
    ∀ s : NormalSurface, (∀ i, s.depths i ≤ 1) →
      ∀ i, (s.draw_writes shade ws).depths i ≤ 1 := by
  induction ws with
  | nil => exact fun s hs => hs
  | cons w ws ih =>
    intro s hs
    rw [draw_writes_cons_normal]
    exact ih _ (normal_depths_le_one_step shade w.1 w.2 s hs)

theorem deferred_draw_writes_depths_le_one (ws : WriteList) :
    ∀ s : DeferredSurface, (∀ i, (s.pixels i).get ShaderValue.Depth ≤ 1) →
      ∀ i, ((s.draw_writes ws).pixels i).get ShaderValue.Depth ≤ 1 := by
  induction ws with
  | nil => exact fun s hs => hs
  | cons w ws ih =>
    intro s hs
    rw [draw_writes_cons_deferred]
    exact ih _ (deferred_depths_le_one_step w.1 w.2 s hs)

/-- C9: a pixel write whose depth channel is exactly `1.0` is always
discarded by both surfaces, however the surface was drawn on before: the
depth buffers start at `1.0`, stay at or below `1.0`, and the depth test is
strict less-than, so far-plane geometry never lands. -/
theorem c9_far_plane_always_discarded (shade : ShadeFn) (size : ℕ × ℕ)
    (ws : WriteList) (p q : Point ℕ) (fsn fsd : FaceShader)
    (hp : p.get ShaderValue.Depth = 1) (hq : q.get ShaderValue.Depth = 1) :
    ((NormalDrawable.surface size).draw_writes shade ws).set_pixel_data shade p fsn
        = (NormalDrawable.surface size).draw_writes shade ws ∧
    ((DeferredDrawable.surface size).draw_writes ws).set_pixel_data q fsd
        = (DeferredDrawable.surface size).draw_writes ws := by
  have hn := normal_draw_writes_depths_le_one shade ws (NormalDrawable.surface size)
    (fun _ => le_refl 1)
  have hd := deferred_draw_writes_depths_le_one ws (DeferredDrawable.surface size)
    (fun _ => le_of_eq (by rfl))
  constructor
  · simp only [NormalSurface.set_pixel_data, hp]
    split
    · rfl
    · rw [if_neg (not_lt.mpr (hn _))]
  · simp only [DeferredSurface.set_pixel_data, hq]
    split
    · rfl
    · rw [if_neg (not_lt.mpr (hd _))]

/-- C9 witness: on a fresh 1 x 1 surface (no prior writes), an in-bounds
write with depth exactly `1.0` leaves both surfaces unchanged. -/
theorem c9_witness :
    ((NormalDrawable.surface (1, 1)).draw_writes shadeFlat []).set_pixel_data shadeFlat
        ⟨0, 0, onesPayload⟩ fsGray = (NormalDrawable.surface (1, 1)).draw_writes shadeFlat [] ∧
    ((DeferredDrawable.surface (1, 1)).draw_writes []).set_pixel_data
        ⟨0, 0, onesPayload⟩ fsGray = (DeferredDrawable.surface (1, 1)).draw_writes [] :=
  c9_far_plane_always_discarded shadeFlat (1, 1) [] _ _ fsGray fsGray rfl rfl

end Renderer

namespace Renderer

/-- Accepted immediate-surface write: in range, in bounds, depth test won. -/
theorem normal_set_pixel_accept (s : NormalSurface) (shade : ShadeFn) (p : Point ℕ)
    (fs : FaceShader)
    (h1 : ¬(p.get ShaderValue.Depth < -1 ∨ p.get ShaderValue.Depth > 1 ∨
      p.x ≥ s.size.1 ∨ p.y ≥ s.size.2))
    (h2 : p.get ShaderValue.Depth < s.depths ((s.size.2 - p.y - 1) * s.size.1 + p.x)) :
    s.set_pixel_data shade p fs = { s with
      colors := Function.update s.colors ((s.size.2 - p.y - 1) * s.size.1 + p.x)
        (color_shader_execute shade ⟨some fs, p.interpolated⟩),
      depths := Function.update s.depths ((s.size.2 - p.y - 1) * s.size.1 + p.x)
        (p.get ShaderValue.Depth) } := by
  simp only [NormalSurface.set_pixel_data]
  rw [if_neg h1, if_pos h2]

/-- Depth-test-lost immediate-surface write: the surface is unchanged. -/
theorem normal_set_pixel_reject (s : NormalSurface) (shade : ShadeFn) (p : Point ℕ)
    (fs : FaceShader)
    (h2 : ¬ p.get ShaderValue.Depth < s.depths ((s.size.2 - p.y - 1) * s.size.1 + p.x)) :
    s.set_pixel_data shade p fs = s := by
  by_cases h1 : p.get ShaderValue.Depth < -1 ∨ p.get ShaderValue.Depth > 1 ∨
      p.x ≥ s.size.1 ∨ p.y ≥ s.size.2
  · simp only [NormalSurface.set_pixel_data]
    rw [if_pos h1]
  · simp only [NormalSurface.set_pixel_data]
    rw [if_neg h1, if_neg h2]

/-- Accepted deferred-surface write. -/
theorem deferred_set_pixel_accept (s : DeferredSurface) (p : Point ℕ) (fs : FaceShader)
    (h1 : ¬(p.get ShaderValue.Depth < -1 ∨ p.get ShaderValue.Depth > 1 ∨
      p.x ≥ s.size.1 ∨ p.y ≥ s.size.2))
    (h2 : p.get ShaderValue.Depth <
      (s.pixels ((s.size.2 - p.y - 1) * s.size.1 + p.x)).get ShaderValue.Depth) :
    s.set_pixel_data p fs = { s with
      pixels := Function.update s.pixels ((s.size.2 - p.y - 1) * s.size.1 + p.x)
        (PixelInfo.set fs p.interpolated) } := by
  simp only [DeferredSurface.set_pixel_data]
  rw [if_neg h1, if_pos h2]

/-- Depth-test-lost deferred-surface write: the surface is unchanged. -/
theorem deferred_set_pixel_reject (s : DeferredSurface) (p : Point ℕ) (fs : FaceShader)
    (h2 : ¬ p.get ShaderValue.Depth <
      (s.pixels ((s.size.2 - p.y - 1) * s.size.1 + p.x)).get ShaderValue.Depth) :
    s.set_pixel_data p fs = s := by
  by_cases h1 : p.get ShaderValue.Depth < -1 ∨ p.get ShaderValue.Depth > 1 ∨
      p.x ≥ s.size.1 ∨ p.y ≥ s.size.2
  · simp only [DeferredSurface.set_pixel_data]
    rw [if_pos h1]
  · simp only [DeferredSurface.set_pixel_data]
    rw [if_neg h1, if_neg h2]

/-- C2 (amended): on a fresh surface of either kind, for two in-bounds
writes to the same pixel whose depth channels lie in `[-1, 1)`, the write
with the strictly smaller depth wins and an equal-depth second write loses,
whatever the order. -/
theorem c2_smaller_depth_wins_amended (shade : ShadeFn) (size : ℕ × ℕ) (x y : ℕ)
    (A B : Interpolated) (fsA fsB : FaceShader)
    (hx : x < size.1) (hy : y < size.2)
    (hA0 : -1 ≤ A depth_slot) (hA1 : A depth_slot < 1)
    (hB0 : -1 ≤ B depth_slot) (hB1 : B depth_slot < 1) :
    (((NormalDrawable.surface size).set_pixel_data shade ⟨x, y, A⟩ fsA).set_pixel_data
        shade ⟨x, y, B⟩ fsB).colors ((size.2 - y - 1) * size.1 + x)
      = (if B depth_slot < A depth_slot
          then color_shader_execute shade ⟨some fsB, B⟩
          else color_shader_execute shade ⟨some fsA, A⟩) ∧
    (((DeferredDrawable.surface size).set_pixel_data ⟨x, y, A⟩ fsA).set_pixel_data
        ⟨x, y, B⟩ fsB).pixels ((size.2 - y - 1) * size.1 + x)
      = (if B depth_slot < A depth_slot
          then (⟨some fsB, B⟩ : PixelInfo) else ⟨some fsA, A⟩) := by
  have hcA : ¬((⟨x, y, A⟩ : Point ℕ).get ShaderValue.Depth < -1 ∨
      (⟨x, y, A⟩ : Point ℕ).get ShaderValue.Depth > 1 ∨
      (⟨x, y, A⟩ : Point ℕ).x ≥ size.1 ∨ (⟨x, y, A⟩ : Point ℕ).y ≥ size.2) := by
    push_neg
    exact ⟨hA0, le_of_lt hA1, hx, hy⟩
  have hcB : ¬((⟨x, y, B⟩ : Point ℕ).get ShaderValue.Depth < -1 ∨
      (⟨x, y, B⟩ : Point ℕ).get ShaderValue.Depth > 1 ∨
      (⟨x, y, B⟩ : Point ℕ).x ≥ size.1 ∨ (⟨x, y, B⟩ : Point ℕ).y ≥ size.2) := by
    push_neg
    exact ⟨hB0, le_of_lt hB1, hx, hy⟩
  constructor
  · rw [normal_set_pixel_accept (NormalDrawable.surface size) shade ⟨x, y, A⟩ fsA hcA hA1]
    by_cases hlt : B depth_slot < A depth_slot
    · rw [normal_set_pixel_accept _ shade ⟨x, y, B⟩ fsB hcB
        (by simpa [Function.update_same] using hlt)]
      simp [Function.update_same, hlt, NormalDrawable.surface]
    · rw [normal_set_pixel_reject _ shade ⟨x, y, B⟩ fsB
        (by simpa [Function.update_same] using hlt)]
      simp [Function.update_same, hlt, NormalDrawable.surface]
  · rw [deferred_set_pixel_accept (DeferredDrawable.surface size) ⟨x, y, A⟩ fsA hcA
      (by simpa [DeferredDrawable.surface, pixelinfo_get_depth, PixelInfo.new,
        deferred_empty, Function.update_same] using hA1)]
    by_cases hlt : B depth_slot < A depth_slot
    · rw [deferred_set_pixel_accept _ ⟨x, y, B⟩ fsB hcB
        (by simpa [Function.update_same, pixelinfo_get_depth, PixelInfo.set] using hlt)]
      simp [Function.update_same, hlt, PixelInfo.set, DeferredDrawable.surface]
    · rw [deferred_set_pixel_reject _ ⟨x, y, B⟩ fsB
        (by simpa [Function.update_same, pixelinfo_get_depth, PixelInfo.set] using hlt)]
      simp [Function.update_same, hlt, PixelInfo.set, DeferredDrawable.surface]

end Renderer

namespace Renderer

/-- A payload with every channel `1/2`. -/
def halfPayload : Interpolated := fun _ => 1/2

theorem deferred_empty_depth : deferred_empty depth_slot = 1 := rfl

theorem c2_witness :
    (((NormalDrawable.surface (1, 1)).set_pixel_data shadeFlat ⟨0, 0, halfPayload⟩ fsGray).set_pixel_data
        shadeFlat ⟨0, 0, INTERPOLATED_ZEROS⟩ fsGray).colors
        ((((1, 1) : ℕ × ℕ).2 - 0 - 1) * ((1, 1) : ℕ × ℕ).1 + 0)
      = (if INTERPOLATED_ZEROS depth_slot < halfPayload depth_slot
          then color_shader_execute shadeFlat ⟨some fsGray, INTERPOLATED_ZEROS⟩
          else color_shader_execute shadeFlat ⟨some fsGray, halfPayload⟩) ∧
    (((DeferredDrawable.surface (1, 1)).set_pixel_data ⟨0, 0, halfPayload⟩ fsGray).set_pixel_data
        ⟨0, 0, INTERPOLATED_ZEROS⟩ fsGray).pixels
        ((((1, 1) : ℕ × ℕ).2 - 0 - 1) * ((1, 1) : ℕ × ℕ).1 + 0)
      = (if INTERPOLATED_ZEROS depth_slot < halfPayload depth_slot
          then (⟨some fsGray, INTERPOLATED_ZEROS⟩ : PixelInfo)
          else ⟨some fsGray, halfPayload⟩) :=
  c2_smaller_depth_wins_amended shadeFlat (1, 1) 0 0 halfPayload INTERPOLATED_ZEROS
    fsGray fsGray (by decide) (by decide)
    (by norm_num [halfPayload]) (by norm_num [halfPayload])
    (by norm_num [INTERPOLATED_ZEROS]) (by norm_num [INTERPOLATED_ZEROS])

theorem c2_counterexample :
    (((DeferredDrawable.surface (1, 1)).set_pixel_data ⟨0, 0, onesPayload⟩ fsGray).set_pixel_data
        ⟨0, 0, onesPayload⟩ fsGray).pixels 0 = ⟨none, deferred_empty⟩ ∧
    (⟨none, deferred_empty⟩ : PixelInfo) ≠ ⟨some fsGray, onesPayload⟩ ∧
    (((NormalDrawable.surface (1, 1)).set_pixel_data shadeFlat ⟨0, 0, onesPayload⟩ fsGray).set_pixel_data
        shadeFlat ⟨0, 0, onesPayload⟩ fsGray).colors 0 = ⟨0, 0, 0⟩ ∧
    color_shader_execute shadeFlat ⟨some fsGray, onesPayload⟩ ≠ ⟨0, 0, 0⟩ := by
  have e1 : (DeferredDrawable.surface (1, 1)).set_pixel_data ⟨0, 0, onesPayload⟩ fsGray
      = DeferredDrawable.surface (1, 1) :=
    deferred_set_pixel_reject _ _ _
      (by norm_num [point_get_depth, pixelinfo_get_depth, DeferredDrawable.surface,
        PixelInfo.new, deferred_empty_depth, onesPayload])
  have e2 : (NormalSurface.set_pixel_data (NormalDrawable.surface (1, 1)) shadeFlat
      ⟨0, 0, onesPayload⟩ fsGray) = NormalDrawable.surface (1, 1) :=
    normal_set_pixel_reject _ _ _ _
      (by norm_num [point_get_depth, NormalDrawable.surface, onesPayload])
  refine ⟨?_, ?_, ?_, ?_⟩
  · rw [e1, e1]
    rfl
  · exact fun h => Option.noConfusion (congrArg PixelInfo.shader h)
  · rw [e2, e2]
    rfl
  · intro h
    have hr : (1 : ℚ)/2 = 0 := congrArg Color.r h
    norm_num at hr

end Renderer

namespace Renderer

/-- Range-or-bounds-rejected immediate-surface write: unchanged. -/
theorem normal_set_pixel_skip (s : NormalSurface) (shade : ShadeFn) (p : Point ℕ)
    (fs : FaceShader)
    (h1 : p.get ShaderValue.Depth < -1 ∨ p.get ShaderValue.Depth > 1 ∨
      p.x ≥ s.size.1 ∨ p.y ≥ s.size.2) :
    s.set_pixel_data shade p fs = s := by
  simp only [NormalSurface.set_pixel_data]
  exact if_pos h1

/-- Range-or-bounds-rejected deferred-surface write: unchanged. -/
theorem deferred_set_pixel_skip (s : DeferredSurface) (p : Point ℕ) (fs : FaceShader)
    (h1 : p.get ShaderValue.Depth < -1 ∨ p.get ShaderValue.Depth > 1 ∨
      p.x ≥ s.size.1 ∨ p.y ≥ s.size.2) :
    s.set_pixel_data p fs = s := by
  simp only [DeferredSurface.set_pixel_data]
  exact if_pos h1

/-- The simulation relation between an immediate and a deferred surface fed
the same writes: same size, the immediate depth buffer mirrors the stored
records' depth channel, and the immediate color buffer is the shaded value
of the stored record. -/
def Aligned (shade : ShadeFn) (sn : NormalSurface) (sd : DeferredSurface) : Prop :=
  sn.size = sd.size ∧
  (∀ i, sn.depths i = (sd.pixels i).get ShaderValue.Depth) ∧
  (∀ i, sn.colors i = color_shader_execute shade (sd.pixels i))

theorem aligned_fresh (shade : ShadeFn) (size : ℕ × ℕ) :
    Aligned shade (NormalDrawable.surface size) (DeferredDrawable.surface size) :=
  ⟨rfl, fun _ => rfl, fun _ => rfl⟩

theorem aligned_step (shade : ShadeFn) (p : Point ℕ) (fs : FaceShader)
    {sn : NormalSurface} {sd : DeferredSurface} (h : Aligned shade sn sd) :
    Aligned shade (sn.set_pixel_data shade p fs) (sd.set_pixel_data p fs) := by
  obtain ⟨hsize, hdepth, hcolor⟩ := h
  by_cases h1 : p.get ShaderValue.Depth < -1 ∨ p.get ShaderValue.Depth > 1 ∨
      p.x ≥ sn.size.1 ∨ p.y ≥ sn.size.2
  · rw [normal_set_pixel_skip sn shade p fs h1, deferred_set_pixel_skip sd p fs (hsize ▸ h1)]
    exact ⟨hsize, hdepth, hcolor⟩
  · by_cases h2 : p.get ShaderValue.Depth <
        sn.depths ((sn.size.2 - p.y - 1) * sn.size.1 + p.x)
    · have h2' : p.get ShaderValue.Depth <
          (sd.pixels ((sd.size.2 - p.y - 1) * sd.size.1 + p.x)).get ShaderValue.Depth := by
        rw [← hsize]
        exact (hdepth _) ▸ h2
      rw [normal_set_pixel_accept sn shade p fs h1 h2,
        deferred_set_pixel_accept sd p fs (hsize ▸ h1) h2']
      refine ⟨hsize, fun i => ?_, fun i => ?_⟩ <;>
        simp only [Function.update_apply, ← hsize] <;>
        split
      · rfl
      · exact hdepth i
      · rfl
      · exact hcolor i
    · have h2' : ¬ p.get ShaderValue.Depth <
          (sd.pixels ((sd.size.2 - p.y - 1) * sd.size.1 + p.x)).get ShaderValue.Depth := by
        rw [← hsize]
        exact (hdepth _) ▸ h2
      rw [normal_set_pixel_reject sn shade p fs h2, deferred_set_pixel_reject sd p fs h2']
      exact ⟨hsize, hdepth, hcolor⟩

theorem aligned_draw_writes (shade : ShadeFn) (ws : WriteList) :
    ∀ {sn : NormalSurface} {sd : DeferredSurface}, Aligned shade sn sd →
      Aligned shade (sn.draw_writes shade ws) (sd.draw_writes ws) := by
  induction ws with
  | nil => exact fun h => h
  | cons w ws ih =>
    intro sn sd h
    rw [draw_writes_cons_normal, draw_writes_cons_deferred]
    exact ih (aligned_step shade w.1 w.2 h)

/-- C4: for every frame (modelled as the write sequence the shared
line/triangle algorithms hand to the surface, identical for both surface
kinds) in which no two writes share a pixel coordinate, the immediate and
the deferred surface display identical color buffers, unwritten background
pixels included. -/
theorem c4_deferred_immediate_equivalence (shade : ShadeFn) (size : ℕ × ℕ)
    (ws : WriteList)
    (_hsep : ws.Pairwise (fun a b => a.1.x ≠ b.1.x ∨ a.1.y ≠ b.1.y)) :
    ((NormalDrawable.surface size).draw_writes shade ws).display
      = ((DeferredDrawable.surface size).draw_writes ws).display shade :=
  funext fun i => (aligned_draw_writes shade ws (aligned_fresh shade size)).2.2 i

/-- C4 witness: a single gray write on a 4 x 4 frame displays identically
through both surfaces. -/
theorem c4_witness :
    ((NormalDrawable.surface (4, 4)).draw_writes shadeFlat
        [(⟨1, 2, halfPayload⟩, fsGray)]).display
      = ((DeferredDrawable.surface (4, 4)).draw_writes
        [(⟨1, 2, halfPayload⟩, fsGray)]).display shadeFlat :=
  c4_deferred_immediate_equivalence shadeFlat (4, 4) [(⟨1, 2, halfPayload⟩, fsGray)]
    (by simp)

end Renderer

namespace Renderer

/-! ## Geometry and triangle dispatch (src/renderer.rs, src/renderer/common.rs) -/

/-- `Point3D::sub` (common.rs:316-328). -/
def Point3D.sub (a b : Point3D) : Point3D :=
  ⟨a.x - b.x, a.y - b.y, a.z - b.z⟩

/-- `Point3D::mul` by a scalar (common.rs:302-314). -/
def Point3D.mul (a : Point3D) (rhs : ℚ) : Point3D :=
  ⟨a.x * rhs, a.y * rhs, a.z * rhs⟩

/-- `Point3D::neg` (common.rs:330-342). -/
def Point3D.neg (a : Point3D) : Point3D :=
  ⟨-a.x, -a.y, -a.z⟩

/-- `Point3D::dot` (common.rs:282-285). -/
def Point3D.dot (a b : Point3D) : ℚ :=
  a.x * b.x + a.y * b.y + a.z * b.z

/-- `Point3D::cross` (common.rs:287-294). -/
def Point3D.cross (a b : Point3D) : Point3D :=
  ⟨a.y * b.z - a.z * b.y, a.z * b.x - a.x * b.z, a.x * b.y - a.y * b.x⟩

/-- `Object::backface` (renderer.rs:191-196): the face normal is the cross
product of two edges; the face is a backface when the dot of the
origin-to-vertex vector with it is `>= 0`. -/
def backface (p0 p1 p2 : Point3D) : Bool × Point3D :=
  let normal := (p1.sub p0).cross (p2.sub p0)
  (decide (p0.dot normal ≥ 0), normal)

/-- `Object::draw_triangle` (renderer.rs:207-265) for one triangle, given
its three world-space vertices: cull first, and only then assemble the three
rasterizer vertices and call the drawable's generic `triangle`.  Both the
vertex assembly (`point_at`, renderer.rs:224-260) and the drawable are
parameters: the drawable because the source is generic over
`impl Drawable`, and `point_at` because its committed body does not
type-check against the committed `common.rs` (it builds a 9-element
`shader_values` array for the 7-slot `Interpolated`, see C5) yet is only
ever evaluated after the cull test passes. -/
def draw_triangle (world_p0 world_p1 world_p2 : Point3D)
    (point_at : Fin 3 → Point ℚ) (shader : FaceShader)
    (triangle : Point ℚ → Point ℚ → Point ℚ → FaceShader → List (Point ℕ × FaceShader)) :
    List (Point ℕ × FaceShader) :=
  if (backface world_p0 world_p1 world_p2).1 then []
  else triangle (point_at 0) (point_at 1) (point_at 2) shader

/-- C6: a triangle whose world vertices satisfy
`p0 . ((p1 - p0) x (p2 - p0)) >= 0` is culled before any rasterization:
`draw_triangle` emits no pixel write at all, whatever the vertex assembly
and whatever the rasterizer would produce. -/
theorem c6_backface_culled (p0 p1 p2 : Point3D) (point_at : Fin 3 → Point ℚ)
    (shader : FaceShader)
    (triangle : Point ℚ → Point ℚ → Point ℚ → FaceShader → List (Point ℕ × FaceShader))
    (h : 0 ≤ p0.dot ((p1.sub p0).cross (p2.sub p0))) :
    draw_triangle p0 p1 p2 point_at shader triangle = [] := by
  have h' : (backface p0 p1 p2).1 = true := decide_eq_true h
  simp only [draw_triangle]
  rw [if_pos h']

/-- C6 witness: the unit triangle in the `z = 0` plane seen from the origin
is a backface (`dot = 0`) and emits nothing, even against a rasterizer that
would emit a pixel. -/
theorem c6_witness :
    draw_triangle ⟨0, 0, 0⟩ ⟨1, 0, 0⟩ ⟨0, 1, 0⟩
      (fun _ => ⟨0, 0, INTERPOLATED_ZEROS⟩) fsGray
      (fun _ _ _ fs => [(⟨0, 0, INTERPOLATED_ZEROS⟩, fs)]) = [] :=
  c6_backface_culled _ _ _ _ _ _
    (by norm_num [Point3D.dot, Point3D.sub, Point3D.cross])

/-- The `shader_values` array literal `Object::draw_triangle` builds per
vertex (renderer.rs:248-253): clip depth, world position, normal, and UV —
nine entries. -/
def draw_triangle_shader_values (pz wx wy wz nx ny nz ux uy : ℚ) : List ℚ :=
  [pz, wx, wy, wz, nx, ny, nz, ux, uy]

/-- C5 (the committed code contradicts itself): `draw_triangle` assembles a
9-element `shader_values` array per vertex, but the committed `ShaderValue`
enum ends at `NormalZ` (no `UvX`/`UvY`), so `VALUES_AMOUNT =
ShaderValue::LAST = 7` and `Interpolated = [f64; 7]` — the claimed fixed
9-channel order cannot hold and the assembly cannot even type-check. -/
theorem c5_channel_count_mismatch :
    (draw_triangle_shader_values 0 0 0 0 0 0 0 0 0).length = 9 ∧
    VALUES_AMOUNT = 7 ∧
    (draw_triangle_shader_values 0 0 0 0 0 0 0 0 0).length ≠ VALUES_AMOUNT :=
  ⟨rfl, rfl, by decide⟩

end Renderer

namespace Renderer

/-! ## Texture lookup (src/renderer/common/texture.rs) -/

/-- `Texture` (texture.rs:8-13): a width x height grid of texels, row-major
with the bottom row first (`pixel_local` flips the row index). -/
structure Texture where
  size : ℕ × ℕ
  colors : List Color

/-- The `f64 as i32` cast: truncation toward zero (`Int.div` with a positive
denominator, `Int.tdiv`).  Rust saturates at the `i32` bounds and sends NaN to 0;
neither case arises at texture sizes. -/
def f64_as_i32 (q : ℚ) : ℤ :=
  q.num.tdiv q.den

/-- `Texture::to_local` (texture.rs:47-53): scale each UV component by the
size, cast, clamp below by `0` and above by `size` — note the upper clamp is
`size`, not `size - 1`. -/
def Texture.to_local (t : Texture) (position : ℚ × ℚ) : ℕ × ℕ :=
  (min (max (f64_as_i32 (position.1 * t.size.1)) 0).toNat t.size.1,
   min (max (f64_as_i32 (position.2 * t.size.2)) 0).toNat t.size.2)

/-- `Texture::pixel_local` (texture.rs:42-45): Y-flipped row-major indexing;
`none` models the out-of-bounds indexing panic.  (`self.size.1 - position.y
- 1` is `usize` arithmetic; the truncated `ℕ` subtraction matches whenever
`position.y < size.1`, which holds for the inputs considered here.) -/
def Texture.pixel_local (t : Texture) (position : ℕ × ℕ) : Option Color :=
  t.colors.get? ((t.size.2 - position.2 - 1) * t.size.1 + position.1)

/-- `Texture::pixel` (texture.rs:37-40). -/
def Texture.pixel (t : Texture) (position : ℚ × ℚ) : Option Color :=
  t.pixel_local (t.to_local position)

/-- C7 (code bug): on a 1 x 1 texture the UV `(1, 0)` — both components in
`[0, 1]` — is clamped only to column `size.0 = 1`, so `pixel_local` indexes
texel `(1-0-1)*1 + 1 = 1` of the one-texel array: out of bounds, an index
panic in Rust (`none` here), not a safe nearest-neighbour lookup. -/
theorem c7_uv_one_out_of_bounds :
    Texture.to_local ⟨(1, 1), [⟨1, 0, 0⟩]⟩ (1, 0) = (1, 0) ∧
    Texture.pixel ⟨(1, 1), [⟨1, 0, 0⟩]⟩ (1, 0) = none := by
  have hx : f64_as_i32 ((1 : ℚ) * ((1 : ℕ) : ℚ)) = 1 := by
    norm_num [f64_as_i32]
  have hy : f64_as_i32 ((0 : ℚ) * ((1 : ℕ) : ℚ)) = 0 := by
    norm_num [f64_as_i32]
  have hloc : Texture.to_local ⟨(1, 1), [⟨1, 0, 0⟩]⟩ (1, 0) = (1, 0) := by
    simp only [Texture.to_local, hx, hy]
    decide
  refine ⟨hloc, ?_⟩
  rw [Texture.pixel, hloc]
  rfl

end Renderer

namespace Renderer

/-! ## Transform matrices (src/renderer.rs 30-111, src/renderer/common.rs
9-56), over `ℝ` since `combine` uses `cos`, `sin` and `sqrt`. -/

/-- `Mat4x4` (common.rs:9-13). -/
structure Mat4x4 where
  mat : Fin 4 → Fin 4 → ℝ

/-- `Mat4x4::new` (common.rs:17-27): the identity. -/
noncomputable def Mat4x4.new : Mat4x4 :=
  ⟨![![1, 0, 0, 0], ![0, 1, 0, 0], ![0, 0, 1, 0], ![0, 0, 0, 1]]⟩

/-- `Mat4x4 * Mat4x4` (common.rs:58-82): the row-column sums of the loop. -/
noncomputable def Mat4x4.mul (a b : Mat4x4) : Mat4x4 :=
  ⟨fun y x => ∑ i : Fin 4, a.mat y i * b.mat i x⟩

/-- `Mat4x4 * [f64; 4]` (common.rs:42-56). -/
noncomputable def Mat4x4.mul_vec (a : Mat4x4) (rhs : Fin 4 → ℝ) : Fin 4 → ℝ :=
  fun i => ∑ j : Fin 4, a.mat i j * rhs j

/-- `Transform` (renderer.rs:30-37); the cached `combined` field is the
result of `combine` and is not stored separately. -/
structure Transform where
  position : ℝ × ℝ × ℝ
  scale : ℝ × ℝ × ℝ
  rotation : ℝ
  rotation_axis : ℝ × ℝ × ℝ

/-- `Transform::combine` (renderer.rs:55-93): compose
`translate * rotate * scale`, with the axis-angle (Rodrigues) rotation
matrix built from the internally normalized axis.  Caveat of the `ℝ` model:
for a zero-length axis the Rust `f64` code computes `0.0/0.0 = NaN`
components that poison the whole matrix (the spec calls this a caller
error, "produces NaN, not signaled"), while Lean's division by zero yields
`0`; theorems about `combine` therefore carry a nonzero-axis hypothesis so
that nothing is concluded on that diverging error path. -/
noncomputable def Transform.combine (t : Transform) : Mat4x4 :=
  let scale_mat : Mat4x4 :=
    ⟨![![t.scale.1, 0, 0, 0], ![0, t.scale.2.1, 0, 0],
       ![0, 0, t.scale.2.2, 0], ![0, 0, 0, 1]]⟩
  let translate_mat : Mat4x4 :=
    ⟨![![1, 0, 0, t.position.1], ![0, 1, 0, t.position.2.1],
       ![0, 0, 1, t.position.2.2], ![0, 0, 0, 1]]⟩
  let axis_magnitude : ℝ :=
    Real.sqrt (t.rotation_axis.1 * t.rotation_axis.1
      + t.rotation_axis.2.1 * t.rotation_axis.2.1
      + t.rotation_axis.2.2 * t.rotation_axis.2.2)
  let a0 : ℝ := t.rotation_axis.1 / axis_magnitude
  let a1 : ℝ := t.rotation_axis.2.1 / axis_magnitude
  let a2 : ℝ := t.rotation_axis.2.2 / axis_magnitude
  let ca : ℝ := Real.cos t.rotation
  let nca : ℝ := 1 - ca
  let sa : ℝ := Real.sin t.rotation
  let rotate_mat : Mat4x4 :=
    ⟨![![ca + a0 * a0 * nca, a0 * a1 * nca - a2 * sa, a0 * a2 * nca + a1 * sa, 0],
       ![a1 * a0 * nca + a2 * sa, ca + a1 * a1 * nca, a1 * a2 * nca - a0 * sa, 0],
       ![a2 * a0 * nca - a1 * sa, a2 * a1 * nca + a0 * sa, ca + a2 * a2 * nca, 0],
       ![0, 0, 0, 1]]⟩
  (translate_mat.mul rotate_mat).mul scale_mat

/-- C8: a `Transform` with zero translation, unit scale and zero rotation
angle combines to the identity matrix, and the transformed homogeneous
point equals `[x, y, z, 1]`.  The rotation axis is any *nonzero* axis: a
zero-length axis is the spec-documented NaN caller-error path of the `f64`
code, on which the `ℝ` model diverges (division by zero), so it is excluded
by hypothesis rather than silently decided. -/
theorem c8_identity_transform (x y z ax ay az : ℝ)
    (_hax : ax * ax + ay * ay + az * az ≠ 0) :
    (Transform.combine ⟨(0, 0, 0), (1, 1, 1), 0, (ax, ay, az)⟩).mat = Mat4x4.new.mat ∧
    (Transform.combine ⟨(0, 0, 0), (1, 1, 1), 0, (ax, ay, az)⟩).mul_vec ![x, y, z, 1]
      = ![x, y, z, 1] := by
  have hmat : (Transform.combine ⟨(0, 0, 0), (1, 1, 1), 0, (ax, ay, az)⟩).mat
      = Mat4x4.new.mat := by
    funext i j
    simp only [Transform.combine, Mat4x4.mul, Mat4x4.new, Real.cos_zero, Real.sin_zero]
    fin_cases i <;> fin_cases j <;>
      simp [Fin.sum_univ_four]
  refine ⟨hmat, ?_⟩
  funext i
  simp only [Mat4x4.mul_vec, hmat, Mat4x4.new]
  fin_cases i <;> simp [Fin.sum_univ_four]

/-- C8 witness: the identity transform over the program's own rotation axis
`(0.2, 0.3, 0.4)` (main.rs:44), whose squared length `29/100` is nonzero,
fixes the point `(1, 2, 3)`. -/
theorem c8_witness :
    (Transform.combine ⟨(0, 0, 0), (1, 1, 1), 0, (1/5, 3/10, 2/5)⟩).mat = Mat4x4.new.mat ∧
    (Transform.combine ⟨(0, 0, 0), (1, 1, 1), 0, (1/5, 3/10, 2/5)⟩).mul_vec ![1, 2, 3, 1]
      = ![1, 2, 3, 1] :=
  c8_identity_transform 1 2 3 (1/5) (3/10) (2/5) (by norm_num)

end Renderer
